/-
Verification of the aoc-framework task execution engine (src/lib.rs, src/task.rs)
against its natural-language specification.

The Rust code is shallowly embedded: pure functions become Lean functions;
filesystem and terminal effects are modelled by explicit oracle parameters and
an event trace; machine strings are Lean Strings (all filenames and lines in
the claims are ASCII, where Rust byte indexing and Lean char indexing agree).
-/
import Mathlib

set_option autoImplicit false

namespace Aoc

/-- Solution type from task.rs: `pub type AocSolution = Vec<String>`. -/
abbrev AocSolution := List String

/-- Error taxonomy used by lib.rs and task.rs (variants as constructed there).
The wrapped `std::io::Error` sources are modelled as opaque strings. -/
inductive AocError where
  | MissingExample (directory : String) (source : String)
  | IOReadError (path : String) (source : String)
  | SolutionExecutionError (input_path : String) (source : String)
  | MarkSolvedError (task_name : String) (solved_path : String) (source : String)
  | UserInterractionError (source : String)
  deriving DecidableEq, Repr

/-- Result record from task.rs: `pub struct AocTestResult`. -/
structure AocTestResult where
  passed : Bool
  output : AocSolution
  expected_output : AocSolution
  deriving DecidableEq, Repr

/-! ## Comparator (task.rs, solutions_match)

Rust source:
```
let matches = s1.iter().zip(s2.iter())
    .filter(|&(a, b)| a.trim() == b.trim()).count();
matches == s1.len() && matches == s2.len()
```
-/

/-- Embedding of task.rs solutions_match: count the zipped pairs whose lines are
equal after trimming, and require the count to equal both lengths. -/
def solutions_match (s1 s2 : AocSolution) : Bool :=
  let m := (s1.zip s2).countP (fun p => p.1.trim == p.2.trim)
  m == s1.length && m == s2.length

/-! ## Fixture locator (task.rs, example_paths)

The Rust code lists the task directory, filters entries whose filename contains
"example", inserts those ending in "_in" into a `std::collections::HashMap`
keyed by filename, and then iterates that map, pairing each input with the
filename obtained by replacing its final "_in" with "_out" and keeping the pair
only when both paths are regular files.

`std::collections::HashMap` iteration order is not a function of the inserted
content: the default hasher is seeded randomly per map, so the order observed
can differ between two runs on an identical directory. We therefore embed
example_paths with an explicit iteration-order parameter, constrained to be a
permutation of the inserted keys; every fact about the Rust function must hold
for all such permutations, and order variation across runs corresponds to
different permutation parameters. -/

/-- A directory entry as returned by read_dir: a filename plus whether the
entry is a regular file (what `Path::is_file` reports). -/
structure DirEntry where
  name : String
  regularFile : Bool
  deriving DecidableEq, Repr

/-- Substring containment, modelling Rust `str::contains` on ASCII data. -/
def containsSubstr (s pat : String) : Bool :=
  (List.range (s.length + 1)).any fun i =>
    ((s.data.drop i).take pat.data.length) == pat.data

/-- Suffix test, modelling Rust `str::ends_with` on ASCII data. -/
def strEndsWith (s suffix : String) : Bool :=
  decide (suffix.data.length ≤ s.data.length) &&
    (s.data.drop (s.data.length - suffix.data.length) == suffix.data)

/-- Dropping the last n characters, modelling the effect of Rust
`String::replace_range(len - n.., ...)` before the replacement is appended;
on ASCII data bytes and characters coincide. -/
def strDropRight (s : String) (n : Nat) : String :=
  String.mk (s.data.take (s.data.length - n))

/-- Whether a regular file with the given name exists in the directory,
modelling the `is_file` checks made against the same directory state. -/
def isFile (entries : List DirEntry) (name : String) : Bool :=
  entries.any fun f => f.name == name && f.regularFile

/-- The keys inserted into the `example_inputs` HashMap, in insertion order:
entries whose name contains "example", kept when the name ends with "_in". -/
def exampleInputKeys (entries : List DirEntry) : List String :=
  ((entries.filter (fun f => containsSubstr f.name "example")).map
    (fun f => f.name)).filter (fun n => strEndsWith n "_in")

/-- PathBuf::join for the directory and a filename. -/
def joinPath (dir name : String) : String := dir ++ "/" ++ name

/-- Embedding of the pairing loop of task.rs example_paths. `iterOrder` is the
order in which the HashMap yields the input filenames (see the section
comment); for each one the candidate output name replaces the trailing "_in"
(3 characters) by "_out", and the pair is kept only when both the output path
and the input path are regular files. -/
def example_paths (dir : String) (entries : List DirEntry)
    (iterOrder : List String) : List (String × String) :=
  iterOrder.filterMap fun input_filename =>
    if isFile entries (strDropRight input_filename 3 ++ "_out") &&
        isFile entries input_filename then
      some (joinPath dir input_filename,
            joinPath dir (strDropRight input_filename 3 ++ "_out"))
    else
      none

/-- The fixture-discovery scenario directory of the spec: example_a_in,
example_a_out and example_b_in present as regular files, no example_b_out. -/
def entriesABC : List DirEntry :=
  [⟨"example_a_in", true⟩, ⟨"example_a_out", true⟩, ⟨"example_b_in", true⟩]

/-- A directory with two complete fixture pairs, used to exhibit the order
dependence of example_paths on the HashMap iteration order. -/
def entriesTwoPairs : List DirEntry :=
  [⟨"example_a_in", true⟩, ⟨"example_a_out", true⟩,
   ⟨"example_b_in", true⟩, ⟨"example_b_out", true⟩]

/-! ## Line source and solver pipeline (task.rs)

A file is modelled by the outcome of opening it: either an open error, or the
finite sequence of line-read results the `Lines` iterator would yield (each an
`Ok` line or an I/O error). The solver closure is an arbitrary function of the
lines it receives, fallible with an opaque error, together with a count of how
many iterator pulls it performs (a lazy consumer may stop before the end). -/

/-- Outcome of `File::open(path)` followed by `BufReader::lines()`: an open
error, or the sequence of per-line read results. -/
abbrev FileSource := Except String (List (Except String String))

/-- Iterating the wrapped lines iterator for `pulls` steps, as the iterator
adapter made by `itertools::process_results` does: `Ok` lines are passed
through; the first `Err` is recorded and iteration stops there. Returns the
lines delivered to the consumer and the recorded error, if any. -/
def iterUpTo (items : List (Except String String)) (pulls : Nat) :
    List String × Option String :=
  match pulls, items with
  | 0, _ => ([], none)
  | _ + 1, [] => ([], none)
  | k + 1, Except.ok a :: rest =>
    let r := iterUpTo rest k
    (a :: r.1, r.2)
  | _ + 1, Except.error e :: _ => ([], some e)

/-- Embedding of `itertools::process_results(iterable, processor)`: the
processor runs over the delivered lines, and afterwards a recorded read error
wins over whatever the processor returned. -/
def process_results {β : Type} (items : List (Except String String))
    (pulls : Nat) (f : List String → β) : Except String β :=
  match iterUpTo items pulls with
  | (_, some e) => Except.error e
  | (vs, none) => Except.ok (f vs)

/-- Embedding of task.rs get_file_output: open the file (open errors become
IOReadError naming the path), then collect every line, mapping a mid-stream
read error to IOReadError naming the same path. Collecting is iterating to
exhaustion, hence `iterUpTo` at the full length. -/
def get_file_output (source : FileSource) (path : String) :
    Except AocError AocSolution :=
  match source with
  | Except.error e => Except.error (AocError.IOReadError path e)
  | Except.ok items =>
    match iterUpTo items items.length with
    | (_, some e) => Except.error (AocError.IOReadError path e)
    | (vs, none) => Except.ok vs

/-- Embedding of task.rs solve_from_input_path. The source order is: open via
get_file_iterator (open failure is IOReadError); run the solution inside
process_results, wrapping a solver failure as SolutionExecutionError; then the
two `?` operators surface first the recorded read error as IOReadError and only
then the inner solver result. -/
def solve_from_input_path (source : FileSource) (pulls : Nat)
    (solution : List String → Nat → Except String AocSolution)
    (input_path : String) (phase : Nat) : Except AocError AocSolution :=
  match source with
  | Except.error e => Except.error (AocError.IOReadError input_path e)
  | Except.ok items =>
    match process_results items pulls (fun lines =>
      match solution lines phase with
      | Except.error err =>
        Except.error (AocError.SolutionExecutionError input_path err)
      | Except.ok s => Except.ok s) with
    | Except.error line_read_error =>
      Except.error (AocError.IOReadError input_path line_read_error)
    | Except.ok inner =>
      match inner with
      | Except.error aocErr => Except.error aocErr
      | Except.ok output => Except.ok output

/-- Embedding of task.rs run_example_test: first read the expected output file
of the pair, then solve from the example input, then compare. -/
def run_example_test (outSource : FileSource) (outPath : String)
    (inSource : FileSource) (inPath : String) (pulls : Nat)
    (solution : List String → Nat → Except String AocSolution)
    (phase : Nat) : Except AocError AocTestResult :=
  match get_file_output outSource outPath with
  | Except.error e => Except.error e
  | Except.ok example_output =>
    match solve_from_input_path inSource pulls solution inPath phase with
    | Except.error e => Except.error e
    | Except.ok output =>
      Except.ok { passed := solutions_match example_output output
                  output := output
                  expected_output := example_output }

/-! ## Phase state store (task.rs)

The durable markers live on the filesystem. We model the filesystem as the set
of existing regular files plus a writability predicate on paths; `File::create`
creates the file or truncates an existing one, failing only when the path is
not writable — its success does not depend on whether the file already exists,
which is what the idempotence claim rests on. -/

/-- Filesystem state for the marker store. -/
structure Fs where
  files : List String
  writable : String → Bool

/-- Model of `File::create`: succeeds on a writable path, adding the file if
absent (truncation of an existing file leaves the set of files unchanged). -/
def fileCreate (fs : Fs) (path : String) : Except String Fs :=
  if fs.writable path then
    Except.ok { files := if fs.files.contains path then fs.files
                         else path :: fs.files
                writable := fs.writable }
  else
    Except.error "permission denied"

/-- Embedding of task.rs title_case: split on whitespace, uppercase the first
character of every token, join with single spaces. -/
def title_case (s : String) : String :=
  String.intercalate " "
    (((s.split (fun c => c.isWhitespace)).filter (fun t => t != "")).map
      (fun token =>
        match token.data with
        | [] => ""
        | c :: cs => String.mk (c.toUpper :: cs)))

/-- Embedding of task.rs name(): the final path component of the directory,
with underscores replaced by spaces, in title case. -/
def taskNameOf (dir : String) : String :=
  match (dir.splitOn "/").getLast? with
  | some base =>
    title_case (base.map (fun c => if c = '_' then ' ' else c))
  | none => "Unknown Task"

/-- Embedding of task.rs solved_phase_path: directory joined with
".solved_phase_<N>". -/
def solved_phase_path (dir : String) (phase : Nat) : String :=
  joinPath dir (".solved_phase_" ++ toString phase)

/-- Embedding of task.rs phase_is_solved: existence check of the marker file. -/
def phase_is_solved (fs : Fs) (dir : String) (phase : Nat) : Bool :=
  fs.files.contains (solved_phase_path dir phase)

/-- Embedding of task.rs mark_phase_as_solved: `File::create` on the marker
path, wrapping a failure as MarkSolvedError; returns the updated filesystem. -/
def mark_phase_as_solved (fs : Fs) (dir : String) (phase : Nat) :
    Except AocError Fs :=
  match fileCreate fs (solved_phase_path dir phase) with
  | Except.error io_err =>
    Except.error (AocError.MarkSolvedError (taskNameOf dir)
      (solved_phase_path dir phase) io_err)
  | Except.ok fs2 => Except.ok fs2

/-! ## Execution orchestrator (lib.rs)

check_solved_tasks and its helpers drive trait-object tasks whose operations
touch the filesystem and the terminal. For the orchestrator claims we abstract
one task behind the outcomes of its operations (the functions the trait
provides, with their effects frozen for the duration of the run: marker files
for distinct phases are distinct paths and each task/phase combination is
visited at most once, so a fixed outcome per call site is faithful), and we
record every operation the orchestrator performs in an event trace. The trace
is the observable behaviour: a claim that some operation is never reached is
the statement that its event does not occur. -/

/-- Outcomes of one task's operations, as seen by lib.rs. -/
structure TaskModel where
  name : String
  examplePathsRes : Except AocError (List (String × String))
  runExampleTestRes : String × String → Nat → Except AocError AocTestResult
  solveRes : Nat → Except AocError AocSolution
  phaseIsSolved : Nat → Bool
  askOracle : Nat → Except AocError Bool
  markRes : Nat → Except AocError Unit

/-- Operations the orchestrator performs, recorded in order. -/
inductive Event where
  | exampleRun (task : String) (pair : String × String) (phase : Nat)
  | solveRun (task : String) (phase : Nat)
  | asked (task : String) (phase : Nat)
  | marked (task : String) (phase : Nat)
  deriving DecidableEq, Repr

/-- Embedding of task.rs ask_if_solved: run the confirmation prompt; on "yes"
create the solved marker (whose failure propagates) and return true, on "no"
return false. -/
def ask_if_solved (t : TaskModel) (phase : Nat) :
    List Event × Except AocError Bool :=
  match t.askOracle phase with
  | Except.error e => ([Event.asked t.name phase], Except.error e)
  | Except.ok false => ([Event.asked t.name phase], Except.ok false)
  | Except.ok true =>
    match t.markRes phase with
    | Except.error e =>
      ([Event.asked t.name phase, Event.marked t.name phase], Except.error e)
    | Except.ok _ =>
      ([Event.asked t.name phase, Event.marked t.name phase], Except.ok true)

/-- Embedding of lib.rs solve_task_phase: run the solver on the real input and
print its output; then, only when the phase is not already marked solved, ask
the confirmation prompt; report passed/failed accordingly. -/
def solve_task_phase (t : TaskModel) (phase : Nat) :
    List Event × Except AocError Bool :=
  match t.solveRes phase with
  | Except.error e => ([Event.solveRun t.name phase], Except.error e)
  | Except.ok _ =>
    if t.phaseIsSolved phase then
      ([Event.solveRun t.name phase], Except.ok true)
    else
      match ask_if_solved t phase with
      | (tr, res) => (Event.solveRun t.name phase :: tr, res)

/-- Embedding of lib.rs solve_example_phase: run the example test; when the
phase is 1 and the comparison failed, print the diff and return false (the
early return); in every other case print the output and return true. -/
def solve_example_phase (t : TaskModel) (ex : String × String)
    (phase : Nat) : List Event × Except AocError Bool :=
  match t.runExampleTestRes ex phase with
  | Except.error e => ([Event.exampleRun t.name ex phase], Except.error e)
  | Except.ok res =>
    if phase == 1 && !res.passed then
      ([Event.exampleRun t.name ex phase], Except.ok false)
    else
      ([Event.exampleRun t.name ex phase], Except.ok true)

/-- The inner fixture loop of check_solved_tasks: process fixtures in order,
stopping on the first error or the first false. -/
def runExamples (t : TaskModel) (examples : List (String × String))
    (phase : Nat) : List Event × Except AocError Bool :=
  match examples with
  | [] => ([], Except.ok true)
  | e :: rest =>
    match solve_example_phase t e phase with
    | (tr, Except.error err) => (tr, Except.error err)
    | (tr, Except.ok false) => (tr, Except.ok false)
    | (tr, Except.ok true) =>
      match runExamples t rest phase with
      | (tr2, res2) => (tr ++ tr2, res2)

/-- One phase iteration of check_solved_tasks: discover fixtures (the `?` on
example_paths propagates), run them all, then solve_task_phase; false from
either loop body is returned to the caller. -/
def runPhase (t : TaskModel) (phase : Nat) :
    List Event × Except AocError Bool :=
  match t.examplePathsRes with
  | Except.error e => ([], Except.error e)
  | Except.ok examples =>
    match runExamples t examples phase with
    | (tr, Except.error e) => (tr, Except.error e)
    | (tr, Except.ok false) => (tr, Except.ok false)
    | (tr, Except.ok true) =>
      match solve_task_phase t phase with
      | (tr2, res2) => (tr ++ tr2, res2)

/-- The phase loop `for phase in 1..=phases_per_task`, unrolled from `start`
with `remaining` phases left. -/
def runPhasesFrom (t : TaskModel) (start remaining : Nat) :
    List Event × Except AocError Bool :=
  match remaining with
  | 0 => ([], Except.ok true)
  | n + 1 =>
    match runPhase t start with
    | (tr, Except.error e) => (tr, Except.error e)
    | (tr, Except.ok false) => (tr, Except.ok false)
    | (tr, Except.ok true) =>
      match runPhasesFrom t (start + 1) n with
      | (tr2, res2) => (tr ++ tr2, res2)

/-- All phases of one task, phases 1 through phases_per_task. -/
def runTask (t : TaskModel) (phases_per_task : Nat) :
    List Event × Except AocError Bool :=
  runPhasesFrom t 1 phases_per_task

/-- Embedding of lib.rs check_solved_tasks: tasks in order; any `?` error
propagates; a false from solve_example_phase or solve_task_phase returns
Ok(false) at once; if every task completes, return Ok(true). -/
def check_solved_tasks (tasks : List TaskModel) (phases_per_task : Nat) :
    List Event × Except AocError Bool :=
  match tasks with
  | [] => ([], Except.ok true)
  | t :: rest =>
    match runTask t phases_per_task with
    | (tr, Except.error e) => (tr, Except.error e)
    | (tr, Except.ok false) => (tr, Except.ok false)
    | (tr, Except.ok true) =>
      match check_solved_tasks rest phases_per_task with
      | (tr2, res2) => (tr ++ tr2, res2)

/-- Concrete task whose phase 1 is already marked solved. -/
def tmMarked : TaskModel :=
  ⟨"Sum Task", Except.ok [], fun _ _ => Except.ok ⟨true, ["7"], ["7"]⟩,
   fun _ => Except.ok ["7", "12", "289197"], fun _ => true,
   fun _ => Except.ok false, fun _ => Except.ok ()⟩

/-- Concrete single-fixture task whose solver output never matches the
expected fixture output. -/
def tmFail : TaskModel :=
  ⟨"Day 1", Except.ok [("d/example_a_in", "d/example_a_out")],
   fun _ _ => Except.ok ⟨false, ["8"], ["7"]⟩,
   fun _ => Except.ok ["8"], fun _ => false,
   fun _ => Except.ok true, fun _ => Except.ok ()⟩

/-- Concrete unsolved task whose fixture passes and whose oracle confirms. -/
def tmYes : TaskModel :=
  ⟨"Day 2", Except.ok [("d/example_a_in", "d/example_a_out")],
   fun _ _ => Except.ok ⟨true, ["7"], ["7"]⟩,
   fun _ => Except.ok ["7"], fun _ => false,
   fun _ => Except.ok true, fun _ => Except.ok ()⟩

/-- Concrete unsolved task whose fixture passes and whose oracle denies. -/
def tmNo : TaskModel :=
  ⟨"Day 3", Except.ok [("d/example_a_in", "d/example_a_out")],
   fun _ _ => Except.ok ⟨true, ["7"], ["7"]⟩,
   fun _ => Except.ok ["7"], fun _ => false,
   fun _ => Except.ok false, fun _ => Except.ok ()⟩

/-- Some component operation of the task returned this error. -/
def envErr (t : TaskModel) (e : AocError) : Prop :=
  t.examplePathsRes = Except.error e ∨
  (∃ ex phase, t.runExampleTestRes ex phase = Except.error e) ∨
  (∃ phase, t.solveRes phase = Except.error e) ∨
  (∃ phase, t.askOracle phase = Except.error e) ∨
  (∃ phase, t.markRes phase = Except.error e)

/-- Every component operation of the task succeeds (fixture comparisons may
still come back passed or failed — that is data, not an error). -/
def allOk (t : TaskModel) : Prop :=
  (∃ es, t.examplePathsRes = Except.ok es) ∧
  (∀ ex phase, ∃ r, t.runExampleTestRes ex phase = Except.ok r) ∧
  (∀ phase, ∃ out, t.solveRes phase = Except.ok out) ∧
  (∀ phase, ∃ b, t.askOracle phase = Except.ok b) ∧
  (∀ phase, t.markRes phase = Except.ok ())

/-- Concrete task whose fixture discovery fails. -/
def tmEPErr : TaskModel :=
  ⟨"Day 4", Except.error (AocError.MissingExample "d" "io"),
   fun _ _ => Except.ok ⟨true, ["7"], ["7"]⟩,
   fun _ => Except.ok ["7"], fun _ => false,
   fun _ => Except.ok true, fun _ => Except.ok ()⟩

/-- Concrete task whose components all succeed but whose fixture comparisons
always fail. -/
def tmAllOkFailing : TaskModel :=
  ⟨"Day 5", Except.ok [("d/example_a_in", "d/example_a_out")],
   fun _ _ => Except.ok ⟨false, ["8"], ["7"]⟩,
   fun _ => Except.ok ["8"], fun _ => false,
   fun _ => Except.ok true, fun _ => Except.ok ()⟩

/-! ## Theorems -/

/-- Characterisation of the comparator: the count-based Rust formulation agrees
with the length-plus-pairwise-trim formulation of the spec. -/
theorem solutions_match_eq_true_iff (s1 s2 : AocSolution) :
    solutions_match s1 s2 = true ↔
      s1.length = s2.length ∧ ∀ p ∈ s1.zip s2, p.1.trim = p.2.trim := by
  unfold solutions_match
  simp only [Bool.and_eq_true, beq_iff_eq]
  constructor
  · rintro ⟨h1, h2⟩
    have hle : (s1.zip s2).countP (fun p => p.1.trim == p.2.trim) ≤
        (s1.zip s2).length := List.countP_le_length _
    rw [List.length_zip] at hle
    have hlen : s1.length = s2.length := by omega
    have hz : (s1.zip s2).length = s1.length := by
      rw [List.length_zip]; omega
    have hall := List.countP_eq_length.mp (h1.trans hz.symm)
    exact ⟨hlen, fun p hp => by simpa using hall p hp⟩
  · rintro ⟨hlen, hall⟩
    have hc : (s1.zip s2).countP (fun p => p.1.trim == p.2.trim) =
        (s1.zip s2).length :=
      List.countP_eq_length.mpr (fun p hp => by simpa using hall p hp)
    rw [List.length_zip] at hc
    exact ⟨by omega, by omega⟩

/-- C2: solutions_match A B returns true iff A and B have equal length and
every corresponding pair of lines is equal after trimming leading and trailing
whitespace from each line independently; differing lengths always yield false,
and two zero-length solutions yield true. -/
theorem claim_C2_solutions_match (s1 s2 : AocSolution) :
    (solutions_match s1 s2 = true ↔
      s1.length = s2.length ∧ ∀ p ∈ s1.zip s2, p.1.trim = p.2.trim)
    ∧ (s1.length ≠ s2.length → solutions_match s1 s2 = false)
    ∧ solutions_match [] [] = true := by
  refine ⟨solutions_match_eq_true_iff s1 s2, fun hne => ?_, by decide⟩
  cases h : solutions_match s1 s2 with
  | false => rfl
  | true => exact absurd ((solutions_match_eq_true_iff s1 s2).mp h).1 hne

/-- Witness for C2 at concrete inputs: a length-1 and a length-0 solution do
not match. -/
theorem claim_C2_solutions_match_witness :
    solutions_match ["7"] [] = false :=
  (claim_C2_solutions_match ["7"] []).2.1 (by decide)

/-- C9: once mark_phase_as_solved has succeeded, the marker exists; a second
call on the resulting filesystem succeeds again (File::create truncates rather
than failing on an existing file) and the marker still exists. -/
theorem claim_C9_mark_idempotent (fs : Fs) (dir : String) (phase : Nat)
    (fs1 : Fs) (h : mark_phase_as_solved fs dir phase = Except.ok fs1) :
    phase_is_solved fs1 dir phase = true ∧
    ∃ fs2, mark_phase_as_solved fs1 dir phase = Except.ok fs2 ∧
      phase_is_solved fs2 dir phase = true := by
  have hw : fs.writable (solved_phase_path dir phase) = true := by
    by_contra hw
    unfold mark_phase_as_solved fileCreate at h
    rw [if_neg hw] at h
    simp at h
  have hfs1 : fs1 =
      { files := if fs.files.contains (solved_phase_path dir phase)
                 then fs.files
                 else solved_phase_path dir phase :: fs.files
        writable := fs.writable } := by
    unfold mark_phase_as_solved fileCreate at h
    rw [if_pos hw] at h
    exact (Except.ok.inj h).symm
  have hsolved1 : phase_is_solved fs1 dir phase = true := by
    rw [hfs1]
    unfold phase_is_solved
    by_cases hc : fs.files.contains (solved_phase_path dir phase) = true
    · rw [if_pos hc]; exact hc
    · rw [if_neg hc]; simp
  have hw1 : fs1.writable (solved_phase_path dir phase) = true := by
    rw [hfs1]; exact hw
  have hc1 : fs1.files.contains (solved_phase_path dir phase) = true := by
    unfold phase_is_solved at hsolved1; exact hsolved1
  refine ⟨hsolved1, fs1, ?_, hsolved1⟩
  unfold mark_phase_as_solved fileCreate
  rw [if_pos hw1, hc1]
  simp

/-- Witness for C9: marking phase 1 of the bundled test task on an empty,
writable filesystem and then marking it again. -/
theorem claim_C9_mark_idempotent_witness :
    phase_is_solved ⟨[solved_phase_path "tests/sum_task" 1], fun _ => true⟩
      "tests/sum_task" 1 = true ∧
    ∃ fs2, mark_phase_as_solved
        ⟨[solved_phase_path "tests/sum_task" 1], fun _ => true⟩
        "tests/sum_task" 1 = Except.ok fs2 ∧
      phase_is_solved fs2 "tests/sum_task" 1 = true :=
  claim_C9_mark_idempotent ⟨[], fun _ => true⟩ "tests/sum_task" 1
    ⟨[solved_phase_path "tests/sum_task" 1], fun _ => true⟩ rfl

/-- Evaluation lemma: a fixture test that came back passed, or one at a phase
other than 1, makes solve_example_phase report true. -/
theorem solve_example_phase_pass (t : TaskModel) (ex : String × String)
    (phase : Nat) (r : AocTestResult)
    (h : t.runExampleTestRes ex phase = Except.ok r)
    (hp : phase = 1 → r.passed = true) :
    solve_example_phase t ex phase =
      ([Event.exampleRun t.name ex phase], Except.ok true) := by
  unfold solve_example_phase
  rw [h]
  by_cases h1 : phase = 1
  · subst h1
    simp [hp rfl]
  · have hb : (phase == 1) = false := by simpa using h1
    simp [hb]

/-- Evaluation lemma: at phase 1 a failed comparison makes solve_example_phase
report false after the single fixture event. -/
theorem solve_example_phase_fail1 (t : TaskModel) (ex : String × String)
    (r : AocTestResult) (h : t.runExampleTestRes ex 1 = Except.ok r)
    (hf : r.passed = false) :
    solve_example_phase t ex 1 =
      ([Event.exampleRun t.name ex 1], Except.ok false) := by
  unfold solve_example_phase
  rw [h]
  simp [hf]

/-- Evaluation lemma: the fixture loop over fixtures that all report true. -/
theorem runExamples_all_pass (t : TaskModel) (es : List (String × String))
    (phase : Nat)
    (h : ∀ e ∈ es, ∃ r, t.runExampleTestRes e phase = Except.ok r ∧
      (phase = 1 → r.passed = true)) :
    runExamples t es phase =
      (es.map (fun ex => Event.exampleRun t.name ex phase), Except.ok true) := by
  induction es with
  | nil => rfl
  | cons e rest ih =>
    obtain ⟨r, hr, hp⟩ := h e (List.mem_cons_self e rest)
    have hrest := ih (fun e2 he2 => h e2 (List.mem_cons_of_mem _ he2))
    unfold runExamples
    rw [solve_example_phase_pass t e phase r hr hp, hrest]
    simp

/-- Evaluation lemma: the fixture loop at phase 1 stops at the first failed
comparison, recording the fixtures processed up to and including it. -/
theorem runExamples_stops_at_failure (t : TaskModel)
    (es1 es2 : List (String × String)) (e : String × String)
    (r : AocTestResult)
    (hpre : ∀ e2 ∈ es1, ∃ r2, t.runExampleTestRes e2 1 = Except.ok r2 ∧
      r2.passed = true)
    (he : t.runExampleTestRes e 1 = Except.ok r) (hf : r.passed = false) :
    runExamples t (es1 ++ e :: es2) 1 =
      (es1.map (fun ex => Event.exampleRun t.name ex 1) ++
        [Event.exampleRun t.name e 1], Except.ok false) := by
  induction es1 with
  | nil =>
    rw [List.nil_append]
    unfold runExamples
    rw [solve_example_phase_fail1 t e r he hf]
    simp
  | cons a as ih =>
    obtain ⟨r2, hr2, hp2⟩ := hpre a (List.mem_cons_self a as)
    have hrest := ih (fun e2 he2 => hpre e2 (List.mem_cons_of_mem _ he2))
    rw [List.cons_append]
    unfold runExamples
    rw [solve_example_phase_pass t a 1 r2 hr2 (fun _ => hp2), hrest]
    simp

/-- Evaluation lemma: solve_task_phase when the phase is not marked solved and
the oracle confirms: the marker is created and the phase passes. -/
theorem solve_task_phase_confirmed (t : TaskModel) (phase : Nat)
    (out : AocSolution) (hs : t.solveRes phase = Except.ok out)
    (hns : t.phaseIsSolved phase = false)
    (hask : t.askOracle phase = Except.ok true)
    (hmark : t.markRes phase = Except.ok ()) :
    solve_task_phase t phase =
      ([Event.solveRun t.name phase, Event.asked t.name phase,
        Event.marked t.name phase], Except.ok true) := by
  unfold solve_task_phase ask_if_solved
  rw [hs, hns, hask, hmark]
  simp

/-- Evaluation lemma: solve_task_phase when the phase is not marked solved and
the oracle denies: no marker is created and the phase fails. -/
theorem solve_task_phase_denied (t : TaskModel) (phase : Nat)
    (out : AocSolution) (hs : t.solveRes phase = Except.ok out)
    (hns : t.phaseIsSolved phase = false)
    (hask : t.askOracle phase = Except.ok false) :
    solve_task_phase t phase =
      ([Event.solveRun t.name phase, Event.asked t.name phase],
       Except.ok false) := by
  unfold solve_task_phase ask_if_solved
  rw [hs, hns, hask]
  simp

/-- Evaluation lemma: one phase whose fixture loop reports false returns that
loop's trace and false, without touching the real input. -/
theorem runPhase_examples_false (t : TaskModel) (phase : Nat)
    (es : List (String × String)) (tr : List Event)
    (hex : t.examplePathsRes = Except.ok es)
    (hrun : runExamples t es phase = (tr, Except.ok false)) :
    runPhase t phase = (tr, Except.ok false) := by
  simp [runPhase, hex, hrun]

/-- Evaluation lemma: one phase whose fixture loop reports true continues into
solve_task_phase, concatenating the traces. -/
theorem runPhase_examples_true (t : TaskModel) (phase : Nat)
    (es : List (String × String)) (tr : List Event)
    (hex : t.examplePathsRes = Except.ok es)
    (hrun : runExamples t es phase = (tr, Except.ok true)) :
    runPhase t phase =
      (tr ++ (solve_task_phase t phase).1, (solve_task_phase t phase).2) := by
  simp [runPhase, hex, hrun]

/-- Evaluation lemma: a false from the first phase processed stops the phase
loop. -/
theorem runPhasesFrom_first_false (t : TaskModel) (start n : Nat)
    (tr : List Event) (h : runPhase t start = (tr, Except.ok false)) :
    runPhasesFrom t start (n + 1) = (tr, Except.ok false) := by
  unfold runPhasesFrom
  rw [h]

/-- Evaluation lemma: a false from the first task stops the task loop. -/
theorem check_solved_tasks_head_false (t : TaskModel) (rest : List TaskModel)
    (n : Nat) (tr : List Event) (h : runTask t n = (tr, Except.ok false)) :
    check_solved_tasks (t :: rest) n = (tr, Except.ok false) := by
  unfold check_solved_tasks
  rw [h]

/-- C3: when the marker for the phase already exists and the real-input solve
succeeds, solve_task_phase runs exactly the real-input solve — its trace is the
single solveRun event, so the confirmation oracle is never invoked — and the
phase counts as passed. -/
theorem claim_C3_marked_solved_skips_oracle (t : TaskModel) (phase : Nat)
    (out : AocSolution) (hs : t.solveRes phase = Except.ok out)
    (hp : t.phaseIsSolved phase = true) :
    solve_task_phase t phase =
      ([Event.solveRun t.name phase], Except.ok true) := by
  unfold solve_task_phase
  rw [hs, hp]
  simp

/-- Witness for C3 on the concrete already-solved task. -/
theorem claim_C3_marked_solved_skips_oracle_witness :
    solve_task_phase tmMarked 1 =
      ([Event.solveRun tmMarked.name 1], Except.ok true) :=
  claim_C3_marked_solved_skips_oracle tmMarked 1 ["7", "12", "289197"] rfl rfl

/-- C1: a failed fixture comparison at phase 1 makes check_solved_tasks return
Ok false at once — the run trace is exactly the fixtures processed up to and
including the failing one, so no further fixture, phase or task is processed;
at any phase other than 1 a failed comparison leaves solve_example_phase
returning true, and the phase goes on through the remaining fixtures into the
real-input solve. -/
theorem claim_C1_phase1_aborts_later_phases_continue :
    (∀ (t : TaskModel) (rest : List TaskModel) (n : Nat)
       (es1 es2 : List (String × String)) (e : String × String)
       (r : AocTestResult),
       0 < n →
       t.examplePathsRes = Except.ok (es1 ++ e :: es2) →
       (∀ e2 ∈ es1, ∃ r2, t.runExampleTestRes e2 1 = Except.ok r2 ∧
         r2.passed = true) →
       t.runExampleTestRes e 1 = Except.ok r → r.passed = false →
       check_solved_tasks (t :: rest) n =
         ((es1 ++ [e]).map (fun ex => Event.exampleRun t.name ex 1),
          Except.ok false)) ∧
    (∀ (t : TaskModel) (ex : String × String) (phase : Nat)
       (r : AocTestResult),
       phase ≠ 1 → t.runExampleTestRes ex phase = Except.ok r →
       r.passed = false →
       solve_example_phase t ex phase =
         ([Event.exampleRun t.name ex phase], Except.ok true)) ∧
    (∀ (t : TaskModel) (es : List (String × String)) (phase : Nat),
       phase ≠ 1 → t.examplePathsRes = Except.ok es →
       (∀ e ∈ es, ∃ r, t.runExampleTestRes e phase = Except.ok r) →
       runPhase t phase =
         (es.map (fun ex => Event.exampleRun t.name ex phase) ++
            (solve_task_phase t phase).1,
          (solve_task_phase t phase).2)) := by
  refine ⟨?_, ?_, ?_⟩
  · intro t rest n es1 es2 e r hn hex hpre he hf
    obtain ⟨m, rfl⟩ : ∃ m, n = m + 1 := ⟨n - 1, by omega⟩
    have hre := runExamples_stops_at_failure t es1 es2 e r hpre he hf
    have hrp : runPhase t 1 =
        ((es1 ++ [e]).map (fun ex => Event.exampleRun t.name ex 1),
         Except.ok false) := by
      refine runPhase_examples_false t 1 _ _ hex ?_
      rw [hre]
      simp
    exact check_solved_tasks_head_false t rest (m + 1) _
      (runPhasesFrom_first_false t 1 m _ hrp)
  · intro t ex phase r hph he hf
    have hb : (phase == 1) = false := by simpa using hph
    unfold solve_example_phase
    rw [he]
    simp [hb]
  · intro t es phase hph hex hall
    refine runPhase_examples_true t phase es _ hex ?_
    exact runExamples_all_pass t es phase
      (fun e he2 => by
        obtain ⟨r, hr⟩ := hall e he2
        exact ⟨r, hr, fun h1 => absurd h1 hph⟩)

/-- Witness for C1 on the concrete failing task: the whole two-phase run
returns Ok false after the single phase-1 fixture event, while at phase 2 the
same failing fixture reports true and the phase continues into the real-input
solve. -/
theorem claim_C1_phase1_aborts_later_phases_continue_witness :
    check_solved_tasks [tmFail] 2 =
      ((([] ++ [("d/example_a_in", "d/example_a_out")]).map
          (fun ex => Event.exampleRun tmFail.name ex 1)), Except.ok false) ∧
    solve_example_phase tmFail ("d/example_a_in", "d/example_a_out") 2 =
      ([Event.exampleRun tmFail.name ("d/example_a_in", "d/example_a_out") 2],
       Except.ok true) ∧
    runPhase tmFail 2 =
      ([("d/example_a_in", "d/example_a_out")].map
          (fun ex => Event.exampleRun tmFail.name ex 2) ++
        (solve_task_phase tmFail 2).1,
       (solve_task_phase tmFail 2).2) :=
  ⟨claim_C1_phase1_aborts_later_phases_continue.1 tmFail [] 2 [] []
      ("d/example_a_in", "d/example_a_out") ⟨false, ["8"], ["7"]⟩
      (by decide) rfl (by simp) rfl rfl,
   claim_C1_phase1_aborts_later_phases_continue.2.1 tmFail
      ("d/example_a_in", "d/example_a_out") 2 ⟨false, ["8"], ["7"]⟩
      (by decide) rfl rfl,
   claim_C1_phase1_aborts_later_phases_continue.2.2 tmFail
      [("d/example_a_in", "d/example_a_out")] 2 (by decide) rfl
      (fun e _ => ⟨⟨false, ["8"], ["7"]⟩, rfl⟩)⟩

/-- C4: for an unsolved phase, a "yes" from the confirmation oracle makes the
engine create the solved marker and report the phase passed, the marker event
preceding the return; a "no" makes the whole run return Ok false, the trace
stopping right after the prompt with no marker created. -/
theorem claim_C4_oracle_yes_marks_no_aborts :
    (∀ (t : TaskModel) (phase : Nat) (out : AocSolution),
       t.solveRes phase = Except.ok out → t.phaseIsSolved phase = false →
       t.askOracle phase = Except.ok true → t.markRes phase = Except.ok () →
       solve_task_phase t phase =
         ([Event.solveRun t.name phase, Event.asked t.name phase,
           Event.marked t.name phase], Except.ok true)) ∧
    (∀ (t : TaskModel) (rest : List TaskModel) (n : Nat)
       (es : List (String × String)) (out : AocSolution),
       0 < n → t.examplePathsRes = Except.ok es →
       (∀ e ∈ es, ∃ r, t.runExampleTestRes e 1 = Except.ok r ∧
         r.passed = true) →
       t.solveRes 1 = Except.ok out → t.phaseIsSolved 1 = false →
       t.askOracle 1 = Except.ok false →
       check_solved_tasks (t :: rest) n =
         (es.map (fun ex => Event.exampleRun t.name ex 1) ++
            [Event.solveRun t.name 1, Event.asked t.name 1],
          Except.ok false)) := by
  constructor
  · intro t phase out hs hns hask hmark
    exact solve_task_phase_confirmed t phase out hs hns hask hmark
  · intro t rest n es out hn hex hpass hs hns hask
    obtain ⟨m, rfl⟩ : ∃ m, n = m + 1 := ⟨n - 1, by omega⟩
    have hre := runExamples_all_pass t es 1
      (fun e he => by
        obtain ⟨r, hr, hp⟩ := hpass e he
        exact ⟨r, hr, fun _ => hp⟩)
    have hstp := solve_task_phase_denied t 1 out hs hns hask
    have hrp : runPhase t 1 =
        (es.map (fun ex => Event.exampleRun t.name ex 1) ++
           [Event.solveRun t.name 1, Event.asked t.name 1],
         Except.ok false) := by
      have := runPhase_examples_true t 1 es _ hex hre
      rw [this, hstp]
    exact check_solved_tasks_head_false t rest (m + 1) _
      (runPhasesFrom_first_false t 1 m _ hrp)

/-- Witness for C4: the confirming task marks and passes phase 1; the denying
task makes its whole one-task run return Ok false right after the prompt. -/
theorem claim_C4_oracle_yes_marks_no_aborts_witness :
    solve_task_phase tmYes 1 =
      ([Event.solveRun tmYes.name 1, Event.asked tmYes.name 1,
        Event.marked tmYes.name 1], Except.ok true) ∧
    check_solved_tasks [tmNo] 2 =
      ([("d/example_a_in", "d/example_a_out")].map
          (fun ex => Event.exampleRun tmNo.name ex 1) ++
         [Event.solveRun tmNo.name 1, Event.asked tmNo.name 1],
       Except.ok false) :=
  ⟨claim_C4_oracle_yes_marks_no_aborts.1 tmYes 1 ["7"] rfl rfl rfl rfl,
   claim_C4_oracle_yes_marks_no_aborts.2 tmNo [] 2
      [("d/example_a_in", "d/example_a_out")] ["7"] (by decide) rfl
      (fun e _ => ⟨⟨true, ["7"], ["7"]⟩, rfl, rfl⟩) rfl rfl rfl⟩

/-! ## Error provenance and totality of the orchestrator -/

/-- Evaluation lemma: fixture loop, head fixture errored. -/
theorem runExamples_cons_error (t : TaskModel) (a : String × String)
    (as : List (String × String)) (phase : Nat) (tr : List Event)
    (e : AocError) (h : solve_example_phase t a phase = (tr, Except.error e)) :
    runExamples t (a :: as) phase = (tr, Except.error e) := by
  unfold runExamples
  rw [h]

/-- Evaluation lemma: fixture loop, head fixture reported false. -/
theorem runExamples_cons_false (t : TaskModel) (a : String × String)
    (as : List (String × String)) (phase : Nat) (tr : List Event)
    (h : solve_example_phase t a phase = (tr, Except.ok false)) :
    runExamples t (a :: as) phase = (tr, Except.ok false) := by
  unfold runExamples
  rw [h]

/-- Evaluation lemma: fixture loop, head fixture reported true. -/
theorem runExamples_cons_true (t : TaskModel) (a : String × String)
    (as : List (String × String)) (phase : Nat) (tr : List Event)
    (h : solve_example_phase t a phase = (tr, Except.ok true)) :
    runExamples t (a :: as) phase =
      (tr ++ (runExamples t as phase).1, (runExamples t as phase).2) := by
  conv_lhs => unfold runExamples
  rw [h]

/-- Evaluation lemma: one phase whose fixture discovery errored. -/
theorem runPhase_expaths_error (t : TaskModel) (phase : Nat) (e : AocError)
    (h : t.examplePathsRes = Except.error e) :
    runPhase t phase = ([], Except.error e) := by
  unfold runPhase
  rw [h]

/-- Evaluation lemma: one phase whose fixture loop errored. -/
theorem runPhase_examples_error (t : TaskModel) (phase : Nat)
    (es : List (String × String)) (tr : List Event) (e : AocError)
    (hex : t.examplePathsRes = Except.ok es)
    (hrun : runExamples t es phase = (tr, Except.error e)) :
    runPhase t phase = (tr, Except.error e) := by
  simp [runPhase, hex, hrun]

/-- Evaluation lemma: phase loop, first phase errored. -/
theorem runPhasesFrom_first_error (t : TaskModel) (start n : Nat)
    (tr : List Event) (e : AocError)
    (h : runPhase t start = (tr, Except.error e)) :
    runPhasesFrom t start (n + 1) = (tr, Except.error e) := by
  unfold runPhasesFrom
  rw [h]

/-- Evaluation lemma: phase loop, first phase passed. -/
theorem runPhasesFrom_first_true (t : TaskModel) (start n : Nat)
    (tr : List Event) (h : runPhase t start = (tr, Except.ok true)) :
    runPhasesFrom t start (n + 1) =
      (tr ++ (runPhasesFrom t (start + 1) n).1,
       (runPhasesFrom t (start + 1) n).2) := by
  conv_lhs => unfold runPhasesFrom
  rw [h]

/-- Evaluation lemma: task loop, first task errored. -/
theorem check_solved_tasks_head_error (t : TaskModel) (rest : List TaskModel)
    (n : Nat) (tr : List Event) (e : AocError)
    (h : runTask t n = (tr, Except.error e)) :
    check_solved_tasks (t :: rest) n = (tr, Except.error e) := by
  unfold check_solved_tasks
  rw [h]

/-- Evaluation lemma: task loop, first task done. -/
theorem check_solved_tasks_head_true (t : TaskModel) (rest : List TaskModel)
    (n : Nat) (tr : List Event) (h : runTask t n = (tr, Except.ok true)) :
    check_solved_tasks (t :: rest) n =
      (tr ++ (check_solved_tasks rest n).1, (check_solved_tasks rest n).2) := by
  conv_lhs => unfold check_solved_tasks
  rw [h]

/-- An error out of ask_if_solved came from the prompt or the marker write. -/
theorem ask_if_solved_error (t : TaskModel) (phase : Nat) (e : AocError)
    (h : (ask_if_solved t phase).2 = Except.error e) :
    t.askOracle phase = Except.error e ∨ t.markRes phase = Except.error e := by
  unfold ask_if_solved at h
  cases hask : t.askOracle phase with
  | error e2 =>
    rw [hask] at h
    simp at h
    subst h
    exact Or.inl rfl
  | ok b =>
    rw [hask] at h
    cases b with
    | false => simp at h
    | true =>
      cases hm : t.markRes phase with
      | error e2 =>
        rw [hm] at h
        simp at h
        subst h
        exact Or.inr rfl
      | ok u =>
        rw [hm] at h
        simp at h

/-- An error out of solve_task_phase came from the solver, the prompt or the
marker write. -/
theorem solve_task_phase_error (t : TaskModel) (phase : Nat) (e : AocError)
    (h : (solve_task_phase t phase).2 = Except.error e) :
    t.solveRes phase = Except.error e ∨ t.askOracle phase = Except.error e ∨
      t.markRes phase = Except.error e := by
  unfold solve_task_phase at h
  cases hs : t.solveRes phase with
  | error e2 =>
    rw [hs] at h
    simp at h
    subst h
    exact Or.inl rfl
  | ok out =>
    rw [hs] at h
    by_cases hp : t.phaseIsSolved phase = true
    · simp [hp] at h
    · have hp2 : t.phaseIsSolved phase = false := by simpa using hp
      rcases hq : ask_if_solved t phase with ⟨tr, res⟩
      simp only [hp2, Bool.false_eq_true, if_false, hq] at h
      exact Or.inr (ask_if_solved_error t phase e (by rw [hq]; exact h))

/-- solve_example_phase succeeds whenever run_example_test does. -/
theorem solve_example_phase_ok (t : TaskModel) (ex : String × String)
    (phase : Nat) (h : ∃ r, t.runExampleTestRes ex phase = Except.ok r) :
    ∃ b, (solve_example_phase t ex phase).2 = Except.ok b := by
  obtain ⟨r, hr⟩ := h
  unfold solve_example_phase
  rw [hr]
  by_cases hb : (phase == 1 && !r.passed) = true
  · exact ⟨false, by simp [hb]⟩
  · exact ⟨true, by simp [hb]⟩

/-- An error out of solve_example_phase came from run_example_test. -/
theorem solve_example_phase_error (t : TaskModel) (ex : String × String)
    (phase : Nat) (e : AocError)
    (h : (solve_example_phase t ex phase).2 = Except.error e) :
    t.runExampleTestRes ex phase = Except.error e := by
  cases hr : t.runExampleTestRes ex phase with
  | error e2 =>
    have hev : solve_example_phase t ex phase =
        ([Event.exampleRun t.name ex phase], Except.error e2) := by
      unfold solve_example_phase
      rw [hr]
    rw [hev] at h
    simp at h
    subst h
    exact rfl
  | ok r =>
    obtain ⟨b, hb⟩ := solve_example_phase_ok t ex phase ⟨r, hr⟩
    rw [h] at hb
    simp at hb

/-- An error out of the fixture loop came from some run_example_test call. -/
theorem runExamples_error (t : TaskModel) (es : List (String × String))
    (phase : Nat) (e : AocError)
    (h : (runExamples t es phase).2 = Except.error e) :
    ∃ ex, t.runExampleTestRes ex phase = Except.error e := by
  induction es with
  | nil => simp [runExamples] at h
  | cons a as ih =>
    rcases hq : solve_example_phase t a phase with ⟨tr, res⟩
    cases res with
    | error err =>
      rw [runExamples_cons_error t a as phase tr err hq] at h
      simp at h
      subst h
      exact ⟨a, solve_example_phase_error t a phase err (by rw [hq])⟩
    | ok b =>
      cases b with
      | false =>
        rw [runExamples_cons_false t a as phase tr hq] at h
        simp at h
      | true =>
        rw [runExamples_cons_true t a as phase tr hq] at h
        exact ih h

/-- An error out of one phase came from some component of the task. -/
theorem runPhase_envErr (t : TaskModel) (phase : Nat) (e : AocError)
    (h : (runPhase t phase).2 = Except.error e) : envErr t e := by
  cases hex : t.examplePathsRes with
  | error e2 =>
    rw [runPhase_expaths_error t phase e2 hex] at h
    simp at h
    subst h
    exact Or.inl hex
  | ok es =>
    rcases hq : runExamples t es phase with ⟨tr, res⟩
    cases res with
    | error err =>
      rw [runPhase_examples_error t phase es tr err hex hq] at h
      simp at h
      subst h
      obtain ⟨ex, hex2⟩ := runExamples_error t es phase err (by rw [hq])
      exact Or.inr (Or.inl ⟨ex, phase, hex2⟩)
    | ok b =>
      cases b with
      | false =>
        rw [runPhase_examples_false t phase es tr hex hq] at h
        simp at h
      | true =>
        rw [runPhase_examples_true t phase es tr hex hq] at h
        have h2 : (solve_task_phase t phase).2 = Except.error e := h
        rcases solve_task_phase_error t phase e h2 with h1 | h1 | h1
        · exact Or.inr (Or.inr (Or.inl ⟨phase, h1⟩))
        · exact Or.inr (Or.inr (Or.inr (Or.inl ⟨phase, h1⟩)))
        · exact Or.inr (Or.inr (Or.inr (Or.inr ⟨phase, h1⟩)))

/-- An error out of the phase loop came from some component of the task. -/
theorem runPhasesFrom_envErr (t : TaskModel) (start remaining : Nat)
    (e : AocError) (h : (runPhasesFrom t start remaining).2 = Except.error e) :
    envErr t e := by
  induction remaining generalizing start with
  | zero => simp [runPhasesFrom] at h
  | succ n ih =>
    rcases hq : runPhase t start with ⟨tr, res⟩
    cases res with
    | error e2 =>
      rw [runPhasesFrom_first_error t start n tr e2 hq] at h
      simp at h
      subst h
      exact runPhase_envErr t start e2 (by rw [hq])
    | ok b =>
      cases b with
      | false =>
        rw [runPhasesFrom_first_false t start n tr hq] at h
        simp at h
      | true =>
        rw [runPhasesFrom_first_true t start n tr hq] at h
        exact ih (start + 1) h

/-- An error out of the whole run came from some component of some task. -/
theorem check_solved_tasks_envErr (tasks : List TaskModel) (n : Nat)
    (e : AocError) (h : (check_solved_tasks tasks n).2 = Except.error e) :
    ∃ t ∈ tasks, envErr t e := by
  induction tasks with
  | nil => simp [check_solved_tasks] at h
  | cons t rest ih =>
    rcases hq : runTask t n with ⟨tr, res⟩
    cases res with
    | error e2 =>
      rw [check_solved_tasks_head_error t rest n tr e2 hq] at h
      simp at h
      subst h
      refine ⟨t, List.mem_cons_self t rest, runPhasesFrom_envErr t 1 n e2 ?_⟩
      show (runTask t n).2 = Except.error e2
      rw [hq]
    | ok b =>
      cases b with
      | false =>
        rw [check_solved_tasks_head_false t rest n tr hq] at h
        simp at h
      | true =>
        rw [check_solved_tasks_head_true t rest n tr hq] at h
        obtain ⟨t2, ht2, he2⟩ := ih h
        exact ⟨t2, List.mem_cons_of_mem t ht2, he2⟩

/-- ask_if_solved succeeds whenever the prompt and the marker write do. -/
theorem ask_if_solved_ok (t : TaskModel) (phase : Nat)
    (hask : ∃ b, t.askOracle phase = Except.ok b)
    (hm : t.markRes phase = Except.ok ()) :
    ∃ b, (ask_if_solved t phase).2 = Except.ok b := by
  obtain ⟨b, hb⟩ := hask
  unfold ask_if_solved
  rw [hb]
  cases b with
  | false => exact ⟨false, rfl⟩
  | true => rw [hm]; exact ⟨true, rfl⟩

/-- solve_task_phase succeeds whenever its components do. -/
theorem solve_task_phase_ok (t : TaskModel) (phase : Nat)
    (hs : ∃ out, t.solveRes phase = Except.ok out)
    (hask : ∃ b, t.askOracle phase = Except.ok b)
    (hm : t.markRes phase = Except.ok ()) :
    ∃ b, (solve_task_phase t phase).2 = Except.ok b := by
  obtain ⟨out, ho⟩ := hs
  unfold solve_task_phase
  rw [ho]
  by_cases hp : t.phaseIsSolved phase = true
  · simp [hp]
  · have hp2 : t.phaseIsSolved phase = false := by simpa using hp
    obtain ⟨b, hb⟩ := ask_if_solved_ok t phase hask hm
    rcases hq : ask_if_solved t phase with ⟨tr, res⟩
    rw [hq] at hb
    refine ⟨b, ?_⟩
    simp only [hp2, Bool.false_eq_true, if_false, hq]
    exact hb

/-- The fixture loop succeeds whenever every run_example_test call does. -/
theorem runExamples_ok (t : TaskModel) (es : List (String × String))
    (phase : Nat)
    (h : ∀ ex phase2, ∃ r, t.runExampleTestRes ex phase2 = Except.ok r) :
    ∃ b, (runExamples t es phase).2 = Except.ok b := by
  induction es with
  | nil => exact ⟨true, rfl⟩
  | cons a as ih =>
    obtain ⟨b, hb⟩ := solve_example_phase_ok t a phase (h a phase)
    rcases hq : solve_example_phase t a phase with ⟨tr, res⟩
    rw [hq] at hb
    have hres : res = Except.ok b := hb
    subst hres
    cases b with
    | false => exact ⟨false, by rw [runExamples_cons_false t a as phase tr hq]⟩
    | true =>
      obtain ⟨b2, hb2⟩ := ih
      refine ⟨b2, ?_⟩
      rw [runExamples_cons_true t a as phase tr hq]
      exact hb2

/-- One phase succeeds whenever every component of the task does. -/
theorem runPhase_ok (t : TaskModel) (phase : Nat) (h : allOk t) :
    ∃ b, (runPhase t phase).2 = Except.ok b := by
  obtain ⟨⟨es, hes⟩, hret, hs, hask, hm⟩ := h
  obtain ⟨b, hb⟩ := runExamples_ok t es phase hret
  rcases hq : runExamples t es phase with ⟨tr, res⟩
  rw [hq] at hb
  have hres : res = Except.ok b := hb
  subst hres
  cases b with
  | false => exact ⟨false, by rw [runPhase_examples_false t phase es tr hes hq]⟩
  | true =>
    obtain ⟨b2, hb2⟩ := solve_task_phase_ok t phase (hs phase) (hask phase)
      (hm phase)
    refine ⟨b2, ?_⟩
    rw [runPhase_examples_true t phase es tr hes hq]
    exact hb2

/-- The phase loop succeeds whenever every component of the task does. -/
theorem runPhasesFrom_ok (t : TaskModel) (start remaining : Nat)
    (h : allOk t) : ∃ b, (runPhasesFrom t start remaining).2 = Except.ok b := by
  induction remaining generalizing start with
  | zero => exact ⟨true, rfl⟩
  | succ n ih =>
    obtain ⟨b, hb⟩ := runPhase_ok t start h
    rcases hq : runPhase t start with ⟨tr, res⟩
    rw [hq] at hb
    have hres : res = Except.ok b := hb
    subst hres
    cases b with
    | false => exact ⟨false, by rw [runPhasesFrom_first_false t start n tr hq]⟩
    | true =>
      obtain ⟨b2, hb2⟩ := ih (start + 1)
      refine ⟨b2, ?_⟩
      rw [runPhasesFrom_first_true t start n tr hq]
      exact hb2

/-- The whole run succeeds whenever every component of every task does. -/
theorem check_solved_tasks_ok (tasks : List TaskModel) (n : Nat)
    (h : ∀ t ∈ tasks, allOk t) :
    ∃ b, (check_solved_tasks tasks n).2 = Except.ok b := by
  induction tasks with
  | nil => exact ⟨true, rfl⟩
  | cons t rest ih =>
    obtain ⟨b, hb⟩ := runPhasesFrom_ok t 1 n (h t (List.mem_cons_self t rest))
    have hb2 : (runTask t n).2 = Except.ok b := hb
    rcases hq : runTask t n with ⟨tr, res⟩
    rw [hq] at hb2
    have hres : res = Except.ok b := hb2
    subst hres
    cases b with
    | false =>
      exact ⟨false, by rw [check_solved_tasks_head_false t rest n tr hq]⟩
    | true =>
      obtain ⟨b3, hb3⟩ := ih (fun t2 ht2 => h t2 (List.mem_cons_of_mem t ht2))
      refine ⟨b3, ?_⟩
      rw [check_solved_tasks_head_true t rest n tr hq]
      exact hb3

/-- C5: every pair returned by example_paths consists of two filenames that
exist as regular files in the directory, the input containing "example" and
ending with "_in", the output being the input with the trailing "_in" replaced
by "_out"; on the directory holding exactly example_a_in, example_a_out and
example_b_in, the result is the single pair (example_a_in, example_a_out)
whatever iteration order the HashMap used. -/
theorem claim_C5_example_paths_sound :
    (∀ (dir : String) (entries : List DirEntry) (iterOrder : List String)
       (pr : String × String),
       iterOrder.Perm (exampleInputKeys entries) →
       pr ∈ example_paths dir entries iterOrder →
       ∃ name,
         pr = (joinPath dir name,
               joinPath dir (strDropRight name 3 ++ "_out")) ∧
         isFile entries name = true ∧
         isFile entries (strDropRight name 3 ++ "_out") = true ∧
         containsSubstr name "example" = true ∧
         strEndsWith name "_in" = true) ∧
    (∀ iterOrder : List String,
       iterOrder.Perm (exampleInputKeys entriesABC) →
       example_paths "d" entriesABC iterOrder =
         [("d/example_a_in", "d/example_a_out")]) := by
  constructor
  · intro dir entries iterOrder pr hperm hmem
    rw [example_paths, List.mem_filterMap] at hmem
    obtain ⟨name, hin, hf⟩ := hmem
    by_cases hc : (isFile entries (strDropRight name 3 ++ "_out") &&
        isFile entries name) = true
    · rw [if_pos hc] at hf
      simp only [Bool.and_eq_true] at hc
      obtain ⟨hout, hinF⟩ := hc
      have hkey : name ∈ exampleInputKeys entries := hperm.mem_iff.mp hin
      unfold exampleInputKeys at hkey
      rw [List.mem_filter] at hkey
      obtain ⟨hmem2, hends⟩ := hkey
      rw [List.mem_map] at hmem2
      obtain ⟨entry, hentry, hname⟩ := hmem2
      rw [List.mem_filter] at hentry
      obtain ⟨-, hcont⟩ := hentry
      subst hname
      exact ⟨entry.name, (Option.some.inj hf).symm, hinF, hout, hcont, hends⟩
    · rw [if_neg hc] at hf
      cases hf
  · intro iterOrder hperm
    have h1 := hperm.filterMap (fun input_filename =>
      if isFile entriesABC (strDropRight input_filename 3 ++ "_out") &&
          isFile entriesABC input_filename then
        some (joinPath "d" input_filename,
              joinPath "d" (strDropRight input_filename 3 ++ "_out"))
      else
        none)
    have h2 : example_paths "d" entriesABC (exampleInputKeys entriesABC) =
        [("d/example_a_in", "d/example_a_out")] := by decide
    rw [example_paths]
    rw [example_paths] at h2
    rw [h2] at h1
    exact List.perm_singleton.mp h1

/-- Witness for C5: the concrete scenario directory with a concrete iteration
order yields exactly the complete pair; that pair satisfies the soundness
conditions. -/
theorem claim_C5_example_paths_sound_witness :
    example_paths "d" entriesABC ["example_b_in", "example_a_in"] =
      [("d/example_a_in", "d/example_a_out")] ∧
    ∃ name,
      (("d/example_a_in", "d/example_a_out") : String × String) =
        (joinPath "d" name, joinPath "d" (strDropRight name 3 ++ "_out")) ∧
      isFile entriesABC name = true ∧
      isFile entriesABC (strDropRight name 3 ++ "_out") = true ∧
      containsSubstr name "example" = true ∧
      strEndsWith name "_in" = true :=
  ⟨claim_C5_example_paths_sound.2 ["example_b_in", "example_a_in"] (by decide),
   claim_C5_example_paths_sound.1 "d" entriesABC
     ["example_a_in", "example_b_in"] ("d/example_a_in", "d/example_a_out")
     (by decide) (by decide)⟩

/-- Counterexample to C6 as stated: with two complete fixture pairs, two
iteration orders of the example_inputs HashMap — both permutations of the
inserted keys, as two runs with different hash seeds produce — give the pairs
in different orders, so the returned sequence is not a function of the
directory state alone. -/
theorem claim_C6_counterexample :
    ¬ (∀ (entries : List DirEntry) (iter1 iter2 : List String),
        iter1.Perm (exampleInputKeys entries) →
        iter2.Perm (exampleInputKeys entries) →
        example_paths "d" entries iter1 = example_paths "d" entries iter2) := by
  intro hclaim
  have h := hclaim entriesTwoPairs ["example_a_in", "example_b_in"]
    ["example_b_in", "example_a_in"] (by decide) (by decide)
  exact absurd h (by decide)

/-- C6 amended: what is deterministic in example_paths is the multiset of
pairs: any two HashMap iteration orders (permutations of the inserted keys)
produce permutations of the same pairs, so only the order may vary between
runs on identical input. -/
theorem claim_C6_amended_multiset_deterministic (dir : String)
    (entries : List DirEntry) (iter1 iter2 : List String)
    (h1 : iter1.Perm (exampleInputKeys entries))
    (h2 : iter2.Perm (exampleInputKeys entries)) :
    (example_paths dir entries iter1).Perm (example_paths dir entries iter2) :=
  (h1.trans h2.symm).filterMap _

/-- Witness for the amended C6 on the two-pair directory. -/
theorem claim_C6_amended_multiset_deterministic_witness :
    (example_paths "d" entriesTwoPairs ["example_a_in", "example_b_in"]).Perm
      (example_paths "d" entriesTwoPairs ["example_b_in", "example_a_in"]) :=
  claim_C6_amended_multiset_deterministic "d" entriesTwoPairs
    ["example_a_in", "example_b_in"] ["example_b_in", "example_a_in"]
    (by decide) (by decide)

/-- C7: an error result of check_solved_tasks always originates from a
component operation of one of the tasks; when every component operation of
every task succeeds, the run returns Ok — in particular a fixture comparison
with passed = false is a normal Ok outcome, never converted into an error —
and a reached component failure (fixture discovery of the first task)
surfaces as exactly that error, terminating the run. -/
theorem claim_C7_error_iff_component_failure :
    (∀ (tasks : List TaskModel) (n : Nat) (e : AocError),
       (check_solved_tasks tasks n).2 = Except.error e →
       ∃ t ∈ tasks, envErr t e) ∧
    (∀ (tasks : List TaskModel) (n : Nat),
       (∀ t ∈ tasks, allOk t) →
       ∃ b, (check_solved_tasks tasks n).2 = Except.ok b) ∧
    (∀ (t : TaskModel) (rest : List TaskModel) (n : Nat) (e : AocError),
       0 < n → t.examplePathsRes = Except.error e →
       (check_solved_tasks (t :: rest) n).2 = Except.error e) := by
  refine ⟨check_solved_tasks_envErr, check_solved_tasks_ok, ?_⟩
  intro t rest n e hn hex
  obtain ⟨m, rfl⟩ : ∃ m, n = m + 1 := ⟨n - 1, by omega⟩
  have h1 : runPhase t 1 = ([], Except.error e) :=
    runPhase_expaths_error t 1 e hex
  have h2 : runPhasesFrom t 1 (m + 1) = ([], Except.error e) :=
    runPhasesFrom_first_error t 1 m [] e h1
  have h3 : check_solved_tasks (t :: rest) (m + 1) = ([], Except.error e) :=
    check_solved_tasks_head_error t rest (m + 1) [] e h2
  rw [h3]

/-- Witness for C7: the discovery-failing task makes provenance point into the
task list; the all-Ok task with failing comparisons still yields an Ok run
result; the reached discovery failure surfaces as the error itself. -/
theorem claim_C7_error_iff_component_failure_witness :
    (∃ t ∈ [tmEPErr], envErr t (AocError.MissingExample "d" "io")) ∧
    (∃ b, (check_solved_tasks [tmAllOkFailing] 3).2 = Except.ok b) ∧
    (check_solved_tasks [tmEPErr] 1).2 =
      Except.error (AocError.MissingExample "d" "io") :=
  ⟨claim_C7_error_iff_component_failure.1 [tmEPErr] 1
      (AocError.MissingExample "d" "io") rfl,
   claim_C7_error_iff_component_failure.2.1 [tmAllOkFailing] 3
      (fun t ht => by
        cases ht with
        | head => exact ⟨⟨_, rfl⟩, fun ex p => ⟨_, rfl⟩, fun p => ⟨_, rfl⟩,
            fun p => ⟨true, rfl⟩, fun p => rfl⟩
        | tail _ h => cases h),
   claim_C7_error_iff_component_failure.2.2 tmEPErr [] 1
      (AocError.MissingExample "d" "io") (by decide) rfl⟩

/-- C8: when a line read fails during the solver's iteration over the input
(the pulled prefix records an error), solve_from_input_path returns
IOReadError naming the input path, whatever the solver did — the failure is
propagated unchanged, never converted into a SolutionExecutionError. -/
theorem claim_C8_midstream_error_is_io_read_error
    (items : List (Except String String)) (pulls : Nat)
    (solution : List String → Nat → Except String AocSolution)
    (input_path : String) (phase : Nat) (e : String)
    (h : (iterUpTo items pulls).2 = some e) :
    solve_from_input_path (Except.ok items) pulls solution input_path phase =
      Except.error (AocError.IOReadError input_path e) := by
  rcases hq : iterUpTo items pulls with ⟨vs, err⟩
  rw [hq] at h
  have he : err = some e := h
  subst he
  simp [solve_from_input_path, process_results, hq]

/-- Witness for C8: a concrete two-line input whose second read fails, with a
solver that would happily return an answer — and another that would itself
error — both surface the same IOReadError. -/
theorem claim_C8_midstream_error_is_io_read_error_witness :
    solve_from_input_path
        (Except.ok [Except.ok "1 2", Except.error "bad utf8"]) 5
        (fun lines _ => Except.ok lines) "d/in" 1 =
      Except.error (AocError.IOReadError "d/in" "bad utf8") ∧
    solve_from_input_path
        (Except.ok [Except.ok "1 2", Except.error "bad utf8"]) 5
        (fun _ _ => Except.error "solver bug") "d/in" 1 =
      Except.error (AocError.IOReadError "d/in" "bad utf8") :=
  ⟨claim_C8_midstream_error_is_io_read_error
      [Except.ok "1 2", Except.error "bad utf8"] 5
      (fun lines _ => Except.ok lines) "d/in" 1 "bad utf8" rfl,
   claim_C8_midstream_error_is_io_read_error
      [Except.ok "1 2", Except.error "bad utf8"] 5
      (fun _ _ => Except.error "solver bug") "d/in" 1 "bad utf8" rfl⟩

/-- C10: run_example_test reads the expected-output file before running the
solver: when that file cannot be read, the result is an IOReadError naming the
output path, and it is the same for every solver — the solver is never
invoked, so no SolutionExecutionError can arise from that fixture. -/
theorem claim_C10_expected_output_read_before_solver (outSource : FileSource)
    (outPath : String) (inSource : FileSource) (inPath : String)
    (pulls phase : Nat) (err : AocError)
    (h : get_file_output outSource outPath = Except.error err) :
    (∃ src, err = AocError.IOReadError outPath src) ∧
    ∀ solution, run_example_test outSource outPath inSource inPath pulls
        solution phase = Except.error err := by
  constructor
  · cases hs : outSource with
    | error e =>
      rw [hs] at h
      have hev : get_file_output (Except.error e) outPath =
          Except.error (AocError.IOReadError outPath e) := rfl
      rw [hev] at h
      simp at h
      exact ⟨e, h.symm⟩
    | ok items =>
      rw [hs] at h
      rcases hq : iterUpTo items items.length with ⟨vs, oerr⟩
      cases oerr with
      | none =>
        have hev : get_file_output (Except.ok items) outPath =
            Except.ok vs := by
          simp [get_file_output, hq]
        rw [hev] at h
        simp at h
      | some e2 =>
        have hev : get_file_output (Except.ok items) outPath =
            Except.error (AocError.IOReadError outPath e2) := by
          simp [get_file_output, hq]
        rw [hev] at h
        simp at h
        exact ⟨e2, h.symm⟩
  · intro solution
    unfold run_example_test
    rw [h]

/-- Witness for C10: an unreadable expected-output file gives the IOReadError
with the output path for the well-behaved and for the erroring solver alike. -/
theorem claim_C10_expected_output_read_before_solver_witness :
    (∃ src, AocError.IOReadError "d/example_a_out" "not found" =
      AocError.IOReadError "d/example_a_out" src) ∧
    ∀ solution, run_example_test (Except.error "not found") "d/example_a_out"
        (Except.ok [Except.ok "1 2"]) "d/example_a_in" 9 solution 1 =
      Except.error (AocError.IOReadError "d/example_a_out" "not found") :=
  claim_C10_expected_output_read_before_solver (Except.error "not found")
    "d/example_a_out" (Except.ok [Except.ok "1 2"]) "d/example_a_in" 9 1
    (AocError.IOReadError "d/example_a_out" "not found") rfl

end Aoc
